import Mathlib

/-!
Verification development for the rune scene-graph module
(`src/legacy/bundles/rune/functions.ts`).

Combinators build an immutable scene graph of `Rune` nodes; a resolver
flattens a graph into drawable primitives with composed world transforms;
two presentation modes (anaglyph, hollusion) post-process the result.
Matrices are 4x4 over the rationals; `gl-matrix` calls
(`mat4.create/scale/translate/multiply`) are translated to the
corresponding exact matrix operations.

The classes `Rune` and `DrawnRune` and the helpers `throwIfNotRune`,
`addColorFromHex`, `hexToColor` and the primitive constructors live in
`rune.ts` / `runes_ops.ts`, which are not part of the provided sources;
those are modelled from the spec, as marked in their doc comments.
-/

namespace Runes


/-- 4x4 matrices over the rationals, the model of gl-matrix `mat4`
(column-vector convention: a point transforms as `M * v`). -/
abbrev Mat4 := Fin 4 → Fin 4 → ℚ

/-- Model of `mat4.create()`: the identity matrix. -/
def idMat : Mat4 := fun i j => if i = j then 1 else 0

/-- Matrix product, the model of `mat4.multiply(out, a, b)`. -/
def matMul (a b : Mat4) : Mat4 := fun i j =>
  a i 0 * b 0 j + a i 1 * b 1 j + a i 2 * b 2 j + a i 3 * b 3 j

/-- Scaling matrix with factors `sx, sy, sz`; `mat4.scale(out, m, v)` is
modelled as `matMul m (scaleM sx sy sz)`. -/
def scaleM (sx sy sz : ℚ) : Mat4 := fun i j =>
  if i = j then
    if i = 0 then sx else if i = 1 then sy else if i = 2 then sz else 1
  else 0

/-- Translation matrix; `mat4.translate(out, m, v)` is modelled as
`matMul m (translateM tx ty tz)`. -/
def translateM (tx ty tz : ℚ) : Mat4 := fun i j =>
  if i = j then 1
  else if j = 3 then
    if i = 0 then tx else if i = 1 then ty else if i = 2 then tz else 0
  else 0

/-- Apply a matrix to an affine point `(x, y, z, 1)`, returning the
transformed `(x, y, z)`. -/
def applyAffine (m : Mat4) (p : ℚ × ℚ × ℚ) : ℚ × ℚ × ℚ :=
  (m 0 0 * p.1 + m 0 1 * p.2.1 + m 0 2 * p.2.2 + m 0 3,
   m 1 0 * p.1 + m 1 1 * p.2.1 + m 1 2 * p.2.2 + m 1 3,
   m 2 0 * p.1 + m 2 1 * p.2.1 + m 2 2 * p.2.2 + m 2 3)

/-- An RGBA color with rational channel values, the model of the
`Float32Array` color vectors of the source. -/
structure RGBA where
  r : ℚ
  g : ℚ
  b : ℚ
  a : ℚ
deriving DecidableEq

/-- Opaque geometry handles for the primitive runes.  The vertex buffers
themselves are produced by the external geometry provider and are out of
scope; only the identity of the handle matters here. -/
inductive Shape where
  | square
  | blank
  | rcross
  | sail
  | triangle
  | corner
  | nova
  | circle
  | heart
  | pentagram
  | ribbon
deriving DecidableEq

/-- Modelled from the spec: the `Rune` class of `rune.ts` (not among the
provided sources).  A node of the immutable composition graph:
`subRunes` (ordered children), `transformMatrix` (local transform,
identity by default), optional `colors`, optional `texture` (image URL),
and `geometry`, present only on primitive leaves.  `Rune.of` of the
source corresponds to applying `Rune.mk` with the listed fields and
defaults `idMat` / `none` for the rest. -/
inductive Rune where
  | mk (subRunes : List Rune) (transformMatrix : Mat4) (colors : Option RGBA)
      (texture : Option String) (geometry : Option Shape)

/-- A JavaScript value sitting in a Rune-typed argument position: either
an actual `Rune`, or any other value (represented by a descriptive
string, since only its non-Runeness matters). -/
inductive Value where
  | rune (r : Rune)
  | nonRune (v : String)

/-- The errors the combinators can raise: `throwIfNotRune` raises a
`TypeError` carrying the offending function's name, and the `frac`
combinators raise a plain `Error` with a descriptive message. -/
inductive RuneError where
  | typeError (fname : String)
  | rangeError (msg : String)
deriving DecidableEq

/-- Modelled from the spec: the resolved, renderable result of
flattening one occurrence of a primitive leaf (`DrawnRune` data of
`rune.ts`, not among the provided sources): the geometry handle, the
fully composed world transform, and the resolved color/texture
(nearest explicit ancestor wins, default black). -/
structure DrawnRune where
  geometry : Shape
  worldTransform : Mat4
  resolvedColor : RGBA
  resolvedTexture : Option String
deriving DecidableEq

/-- The default color: opaque black. -/
def blackColor : RGBA := ⟨0, 0, 0, 1⟩

/-- Modelled from the spec: `getSquare()` of `runes_ops.ts` (not among
the provided sources) returns a fresh primitive leaf carrying the square
geometry, identity transform, and no color/texture. -/
def getSquare : Rune := Rune.mk [] idMat none none (some Shape.square)

/-- Modelled from the spec: `getBlank()` of `runes_ops.ts`, the blank
primitive leaf. -/
def getBlank : Rune := Rune.mk [] idMat none none (some Shape.blank)

/-- `RuneFunctions.square`. -/
def square : Rune := getSquare

/-- `RuneFunctions.blank`. -/
def blank : Rune := getBlank

/-- Modelled from the spec: `throwIfNotRune(name, ...runes)` of
`runes_ops.ts` (not among the provided sources).  Per the spec,
combinators "validate their Rune-typed arguments and fail with a
TypeError naming the offending function if a non-Rune value is passed".
Validation of one argument is modelled as returning the validated Rune;
a multi-argument call is the sequence of its per-argument validations. -/
def throwIfNotRune (fname : String) (v : Value) : Except RuneError Rune :=
  match v with
  | Value.rune r => Except.ok r
  | Value.nonRune _ => Except.error (RuneError.typeError fname)

/-- Modelled from the spec: the palette provider's hex-to-RGBA
conversion (`hexToColor` of `runes_ops.ts`, not among the provided
sources), tabulated at the hex literals appearing in `functions.ts`;
8-bit channels scaled into `[0,1]`, alpha 1. -/
def hexToColor (hex : String) : RGBA :=
  if hex = "#F44336" then ⟨244/255, 67/255, 54/255, 1⟩
  else if hex = "#E91E63" then ⟨233/255, 30/255, 99/255, 1⟩
  else if hex = "#AA00FF" then ⟨170/255, 0/255, 255/255, 1⟩
  else if hex = "#3F51B5" then ⟨63/255, 81/255, 181/255, 1⟩
  else if hex = "#2196F3" then ⟨33/255, 150/255, 243/255, 1⟩
  else if hex = "#4CAF50" then ⟨76/255, 175/255, 80/255, 1⟩
  else if hex = "#FFEB3B" then ⟨255/255, 235/255, 59/255, 1⟩
  else if hex = "#FF9800" then ⟨255/255, 152/255, 0/255, 1⟩
  else if hex = "#795548" then ⟨121/255, 85/255, 72/255, 1⟩
  else if hex = "#FFFFFF" then ⟨1, 1, 1, 1⟩
  else ⟨0, 0, 0, 1⟩

/-- Modelled from the spec: `addColorFromHex(rune, hex)` of
`runes_ops.ts` (not among the provided sources); per the spec the named
colors "are thin wrappers resolving a name/hex to RGBA", wrapping the
given rune in a color node exactly as `color` does. -/
def addColorFromHex (rune : Rune) (hex : String) : Rune :=
  Rune.mk [rune] idMat (some (hexToColor hex)) none none

/-- Overriding rule for inherited color/texture: the node's own
declaration (when present) wins over the inherited one. -/
def ovr {α : Type} : Option α → Option α → Option α
  | some c, _ => some c
  | none, old => old

/-- Modelled from the spec (section 4.2): the resolver
(`Rune.flatten` of `rune.ts`, not among the provided sources).
Depth-first traversal carrying the accumulated context
(world transform, inherited color, inherited texture); at each node the
local transform is right-multiplied into the accumulated transform and
the node's own color/texture (when declared) overrides the inherited
one; a primitive leaf emits one `DrawnRune` with the context in effect,
color defaulting to black. -/
def flattenAux (acc : Mat4) (col : Option RGBA) (tex : Option String) :
    Rune → List DrawnRune
  | Rune.mk subRunes mat cols txt geo =>
    let acc2 := matMul acc mat
    let col2 := ovr cols col
    let tex2 := ovr txt tex
    match geo with
    | some g => [⟨g, acc2, col2.getD blackColor, tex2⟩]
    | none => subRunes.attach.flatMap fun x => flattenAux acc2 col2 tex2 x.1
termination_by r => sizeOf r
decreasing_by
  have h1 : sizeOf x.1 < sizeOf subRunes := List.sizeOf_lt_of_mem x.2
  simp only [Rune.mk.sizeOf_spec]
  omega

/-- Modelled from the spec: flattening starts from the identity context
with no inherited color or texture. -/
def flatten (r : Rune) : List DrawnRune := flattenAux idMat none none r

/-- Stand-ins for the JavaScript trigonometric collaborators used only
by `rotate` and its derived combinators (`Math.cos`, `Math.sin`,
`Math.PI`).  No verified property depends on their values, and every
result that touches rotation quantifies over an arbitrary
interpretation. -/
structure JsTrig where
  cos : ℚ → ℚ
  sin : ℚ → ℚ
  pi : ℚ

/-- `RuneFunctions.scale_independent(ratio_x, ratio_y, rune)`:
validates, then wraps the rune with the scale matrix
`scaleM ratio_x ratio_y 1` (the source computes
`wrapperMat = scaleMat * identity`). -/
def scale_independent (ratio_x ratio_y : ℚ) (v : Value) :
    Except RuneError Rune := do
  let rune ← throwIfNotRune "scale_independent" v
  let scaleMat := matMul idMat (scaleM ratio_x ratio_y 1)
  let wrapperMat := matMul scaleMat idMat
  pure (Rune.mk [rune] wrapperMat none none none)

/-- `RuneFunctions.scale(ratio, rune)`. -/
def scale ( ratio : ℚ) (v : Value) : Except RuneError Rune := do
  let rune ← throwIfNotRune "scale" v
  scale_independent ratio ratio (Value.rune rune)

/-- `RuneFunctions.translate(x, y, rune)`: validates, then wraps the
rune with the translation matrix for the vector `(x, -y, 0)` (y is
negated by the source). -/
def translate (x y : ℚ) (v : Value) : Except RuneError Rune := do
  let rune ← throwIfNotRune "translate" v
  let translateMat := matMul idMat (translateM x (-y) 0)
  let wrapperMat := matMul translateMat idMat
  pure (Rune.mk [rune] wrapperMat none none none)

/-- The z-axis rotation matrix `mat4.rotateZ` produces, with the
cosine/sine supplied by the `JsTrig` interpretation. -/
def rotZM (T : JsTrig) (rad : ℚ) : Mat4 := fun i j =>
  if i = 0 then
    if j = 0 then T.cos rad else if j = 1 then -(T.sin rad) else 0
  else if i = 1 then
    if j = 0 then T.sin rad else if j = 1 then T.cos rad else 0
  else if i = j then 1 else 0

/-- `RuneFunctions.rotate(rad, rune)`: validates, then wraps the rune
with a z-axis rotation matrix. -/
def rotate (T : JsTrig) (rad : ℚ) (v : Value) : Except RuneError Rune := do
  let rune ← throwIfNotRune "rotate" v
  let rotateMat := matMul idMat (rotZM T rad)
  let wrapperMat := matMul rotateMat idMat
  pure (Rune.mk [rune] wrapperMat none none none)

/-- `RuneFunctions.stack_frac(frac, rune1, rune2)`: validates both rune
arguments, rejects `frac` outside `[0,1]`, then stacks `rune1` (scaled
to the top `frac` of the height) over `rune2`. -/
def stack_frac (frac : ℚ) (v1 v2 : Value) : Except RuneError Rune := do
  let rune1 ← throwIfNotRune "stack_frac" v1
  let rune2 ← throwIfNotRune "stack_frac" v2
  if ¬(frac ≥ 0 ∧ frac ≤ 1) then
    Except.error (RuneError.rangeError "stack_frac can only take fraction in [0,1].")
  else do
    let s1 ← scale_independent 1 frac (Value.rune rune1)
    let upper ← translate 0 (-(1 - frac)) (Value.rune s1)
    let s2 ← scale_independent 1 (1 - frac) (Value.rune rune2)
    let lower ← translate 0 frac (Value.rune s2)
    pure (Rune.mk [upper, lower] idMat none none none)

/-- `RuneFunctions.stack(rune1, rune2)`. -/
def stack (v1 v2 : Value) : Except RuneError Rune := do
  let _rune1 ← throwIfNotRune "stack" v1
  let _rune2 ← throwIfNotRune "stack" v2
  stack_frac (1 / 2) v1 v2

/-- `RuneFunctions.stackn(n, rune)`, which recurses with `n - 1` until
`n === 1`, embedded with an explicit fuel argument: `none` models
non-termination of the source recursion (fuel exhausted at every
depth), `some e` a normal return or thrown error.  `n` is a JS number,
modelled as a rational. -/
def stacknF : Nat → ℚ → Value → Option (Except RuneError Rune)
  | 0, _, _ => none
  | fuel + 1, n, v =>
    match throwIfNotRune "stackn" v with
    | Except.error e => some (Except.error e)
    | Except.ok rune =>
      if n = 1 then some (Except.ok rune)
      else
        match stacknF fuel (n - 1) v with
        | none => none
        | some (Except.error e) => some (Except.error e)
        | some (Except.ok rest) =>
          some (stack_frac (1 / n) (Value.rune rune) (Value.rune rest))

/-- `RuneFunctions.quarter_turn_right(rune) = rotate(-PI/2, rune)`. -/
def quarter_turn_right (T : JsTrig) (v : Value) : Except RuneError Rune := do
  let rune ← throwIfNotRune "quarter_turn_right" v
  rotate T (-(T.pi) / 2) (Value.rune rune)

/-- `RuneFunctions.quarter_turn_left(rune) = rotate(PI/2, rune)`. -/
def quarter_turn_left (T : JsTrig) (v : Value) : Except RuneError Rune := do
  let rune ← throwIfNotRune "quarter_turn_left" v
  rotate T (T.pi / 2) (Value.rune rune)

/-- `RuneFunctions.turn_upside_down(rune) = rotate(PI, rune)`. -/
def turn_upside_down (T : JsTrig) (v : Value) : Except RuneError Rune := do
  let rune ← throwIfNotRune "turn_upside_down" v
  rotate T T.pi (Value.rune rune)

/-- `RuneFunctions.beside_frac(frac, rune1, rune2)`: the horizontal
analogue of `stack_frac`. -/
def beside_frac (frac : ℚ) (v1 v2 : Value) : Except RuneError Rune := do
  let rune1 ← throwIfNotRune "beside_frac" v1
  let rune2 ← throwIfNotRune "beside_frac" v2
  if ¬(frac ≥ 0 ∧ frac ≤ 1) then
    Except.error (RuneError.rangeError "beside_frac can only take fraction in [0,1].")
  else do
    let s1 ← scale_independent frac 1 (Value.rune rune1)
    let left ← translate (-(1 - frac)) 0 (Value.rune s1)
    let s2 ← scale_independent (1 - frac) 1 (Value.rune rune2)
    let right ← translate frac 0 (Value.rune s2)
    pure (Rune.mk [left, right] idMat none none none)

/-- `RuneFunctions.beside(rune1, rune2)`. -/
def beside (v1 v2 : Value) : Except RuneError Rune := do
  let _rune1 ← throwIfNotRune "beside" v1
  let _rune2 ← throwIfNotRune "beside" v2
  beside_frac (1 / 2) v1 v2

/-- `RuneFunctions.flip_vert(rune) = scale_independent(1, -1, rune)`. -/
def flip_vert (v : Value) : Except RuneError Rune := do
  let rune ← throwIfNotRune "flip_vert" v
  scale_independent 1 (-1) (Value.rune rune)

/-- `RuneFunctions.flip_horiz(rune) = scale_independent(-1, 1, rune)`. -/
def flip_horiz (v : Value) : Except RuneError Rune := do
  let rune ← throwIfNotRune "flip_horiz" v
  scale_independent (-1) 1 (Value.rune rune)

/-- `RuneFunctions.make_cross(rune)`: the fixed two-row composition of
four rotated copies. -/
def make_cross (T : JsTrig) (v : Value) : Except RuneError Rune := do
  let rune ← throwIfNotRune "make_cross" v
  let a ← quarter_turn_right T (Value.rune rune)
  let b ← rotate T T.pi (Value.rune rune)
  let top ← beside (Value.rune a) (Value.rune b)
  let c ← rotate T (T.pi / 2) (Value.rune rune)
  let bottom ← beside (Value.rune rune) (Value.rune c)
  stack (Value.rune top) (Value.rune bottom)

/-- `RuneFunctions.repeat_pattern(n, pattern, initial)`: applies
`pattern` `n` times; performs no validation of its own, so it operates
on raw values.  The source recursion decrements a JS number until it is
exactly `0`; the claims only concern non-negative integers, captured by
the `Nat` argument. -/
def repeat_pattern : Nat → (Value → Value) → Value → Value
  | 0, _, initial => initial
  | n + 1, pat, initial => pat (repeat_pattern n pat initial)

/-- The clamp `overlay_frac` applies to its (already validated)
fraction: two successive `if`s clip it into `[1e-6, 1 - 1e-6]`. -/
def clampFrac (frac : ℚ) : ℚ :=
  let minFrac : ℚ := 1 / 1000000
  let maxFrac : ℚ := 1 - minFrac
  let f1 := if frac < minFrac then minFrac else frac
  if f1 > maxFrac then maxFrac else f1

/-- `RuneFunctions.overlay_frac(frac, rune1, rune2)`: validates both
runes, rejects `frac` outside `[0,1]`, clamps the fraction, and splits
the depth range: front wrapper `scaleM 1 1 useFrac` around `rune1`
listed before the back wrapper
`translateM 0 0 (-useFrac) * scaleM 1 1 (1 - useFrac)` around
`rune2`. -/
def overlay_frac (frac : ℚ) (v1 v2 : Value) : Except RuneError Rune := do
  let rune1 ← throwIfNotRune "overlay_frac" v1
  let rune2 ← throwIfNotRune "overlay_frac" v2
  if ¬(frac ≥ 0 ∧ frac ≤ 1) then
    Except.error (RuneError.rangeError "overlay_frac can only take fraction in [0,1].")
  else do
    let useFrac := clampFrac frac
    let frontMat := matMul idMat (scaleM 1 1 useFrac)
    let front := Rune.mk [rune1] frontMat none none none
    let backMat := matMul (matMul idMat (translateM 0 0 (-useFrac)))
      (scaleM 1 1 (1 - useFrac))
    let back := Rune.mk [rune2] backMat none none none
    pure (Rune.mk [front, back] idMat none none none)

/-- `RuneFunctions.overlay(rune1, rune2) = overlay_frac(0.5, ...)`. -/
def overlay (v1 v2 : Value) : Except RuneError Rune := do
  let _rune1 ← throwIfNotRune "overlay" v1
  let _rune2 ← throwIfNotRune "overlay" v2
  overlay_frac (1 / 2) v1 v2

/-- `RuneFunctions.color(rune, r, g, b)`: wraps the rune in a node with
the explicit RGBA `(r, g, b, 1)`. -/
def color (v : Value) (r g b : ℚ) : Except RuneError Rune := do
  let rune ← throwIfNotRune "color" v
  pure (Rune.mk [rune] idMat (some ⟨r, g, b, 1⟩) none none)

/-- `RuneFunctions.red(rune)`. -/
def red (v : Value) : Except RuneError Rune := do
  let rune ← throwIfNotRune "red" v
  pure (addColorFromHex rune "#F44336")

/-- `RuneFunctions.pink(rune)`. -/
def pink (v : Value) : Except RuneError Rune := do
  let rune ← throwIfNotRune "pink" v
  pure (addColorFromHex rune "#E91E63")

/-- `RuneFunctions.purple(rune)`. -/
def purple (v : Value) : Except RuneError Rune := do
  let rune ← throwIfNotRune "purple" v
  pure (addColorFromHex rune "#AA00FF")

/-- `RuneFunctions.indigo(rune)`. -/
def indigo (v : Value) : Except RuneError Rune := do
  let rune ← throwIfNotRune "indigo" v
  pure (addColorFromHex rune "#3F51B5")

/-- `RuneFunctions.blue(rune)`. -/
def blue (v : Value) : Except RuneError Rune := do
  let rune ← throwIfNotRune "blue" v
  pure (addColorFromHex rune "#2196F3")

/-- `RuneFunctions.green(rune)`. -/
def green (v : Value) : Except RuneError Rune := do
  let rune ← throwIfNotRune "green" v
  pure (addColorFromHex rune "#4CAF50")

/-- `RuneFunctions.yellow(rune)`. -/
def yellow (v : Value) : Except RuneError Rune := do
  let rune ← throwIfNotRune "yellow" v
  pure (addColorFromHex rune "#FFEB3B")

/-- `RuneFunctions.orange(rune)`. -/
def orange (v : Value) : Except RuneError Rune := do
  let rune ← throwIfNotRune "orange" v
  pure (addColorFromHex rune "#FF9800")

/-- `RuneFunctions.brown(rune)`. -/
def brown (v : Value) : Except RuneError Rune := do
  let rune ← throwIfNotRune "brown" v
  pure (addColorFromHex rune "#795548")

/-- `RuneFunctions.black(rune)`. -/
def black (v : Value) : Except RuneError Rune := do
  let rune ← throwIfNotRune "black" v
  pure (addColorFromHex rune "#000000")

/-- `RuneFunctions.white(rune)`. -/
def white (v : Value) : Except RuneError Rune := do
  let rune ← throwIfNotRune "white" v
  pure (addColorFromHex rune "#FFFFFF")

/-!  Anaglyph: the combining fragment shader and the padded scene built
by `AnaglyphRune.draw`. -/

/-- The body of `AnaglyphRune.anaglyphFragmentShader`: the output color
is the sum of the two per-eye texture samples minus `1.0`
(component-wise, the scalar broadcast over the vec4), after which the
alpha component is overwritten with `1.0`. -/
def anaglyphCombine (redSample cyanSample : RGBA) : RGBA :=
  let c : RGBA :=
    ⟨redSample.r + cyanSample.r - 1, redSample.g + cyanSample.g - 1,
     redSample.b + cyanSample.b - 1, redSample.a + cyanSample.a - 1⟩
  ⟨c.r, c.g, c.b, 1⟩

/-- Clamp a channel into the representable range `[0,1]` of the
fixed-point render target. -/
def clamp01 (x : ℚ) : ℚ := max 0 (min 1 x)

/-- The color actually stored for a written fragment: each channel
clamped into the representable range. -/
def storeColor (c : RGBA) : RGBA :=
  ⟨clamp01 c.r, clamp01 c.g, clamp01 c.b, clamp01 c.a⟩

/-- The white backdrop `AnaglyphRune.draw` (and `HollusionRune.draw`)
builds before rendering:
`white(overlay_frac(0.999999999, blank, scale(2.2, square)))`. -/
def anaglyphBackdrop : Except RuneError Rune := do
  let sq ← scale (11 / 5) (Value.rune square)
  let ov ← overlay_frac (999999999 / 1000000000) (Value.rune blank)
    (Value.rune sq)
  white (Value.rune ov)

/-- The primitive list `AnaglyphRune.draw` renders for each eye: the
flattened backdrop concatenated with the flattened caller scene
(`white(...).flatten().concat(this.rune.flatten())`). -/
def anaglyphRunes (scene : Rune) : Except RuneError (List DrawnRune) := do
  let backdrop ← anaglyphBackdrop
  pure (flatten backdrop ++ flatten scene)

/-!  Hollusion: bake-phase camera offsets and playback frame
selection. -/

/-- Truncation toward zero, the rounding JavaScript's `%` uses. -/
def ratTrunc (x : ℚ) : ℤ := if 0 ≤ x then ⌊x⌋ else ⌈x⌉

/-- The JavaScript remainder operator `a % b` on numbers: the remainder
of truncating division, with the sign of the dividend. -/
def jsMod (a b : ℚ) : ℚ := a - b * (ratTrunc (a / b) : ℚ)

/-- `HollusionRune.draw`: `period = 2000` (milliseconds per loop). -/
def hollusionPeriod : ℚ := 2000

/-- `HollusionRune.draw`: `frameCount = 50` baked frames. -/
def hollusionFrameCount : Nat := 50

/-- The `xshift` computed by `renderFrame(framePos)` inside
`HollusionRune.draw`: fold `(framePos * (period / frameCount)) % period`
around the half-period, then map through
`xshiftMax * (2 * ((2 * xshift) / period) - 1)`. -/
def hollusionXshift (xshiftMax : ℚ) (framePos : Nat) : ℚ :=
  let x1 := jsMod ((framePos : ℚ) * (hollusionPeriod / (hollusionFrameCount : ℚ)))
    hollusionPeriod
  let x2 := if x1 > hollusionPeriod / 2 then hollusionPeriod - x1 else x1
  xshiftMax * (2 * ((2 * x2) / hollusionPeriod) - 1)

/-- The camera eye position `vec3.fromValues(xshift, 0, 0)` that
`renderFrame` feeds to `mat4.lookAt`; its first component is the
camera's horizontal offset. -/
def hollusionCameraEye (xshiftMax : ℚ) (framePos : Nat) : ℚ × ℚ × ℚ :=
  (hollusionXshift xshiftMax framePos, 0, 0)

/-- The camera-offset formula in the words of the spec (claim C8):
`raw = (i * period/N) mod period`, folded around the half-period
(`if raw > period/2 then raw = period - raw`), then
`xshift = magnitude * (2 * (2 * raw / period) - 1)`, with
`period = 2000` and `N = 50`. -/
def specHollusionOffset (magnitude : ℚ) (i : Nat) : ℚ :=
  let raw := jsMod ((i : ℚ) * (2000 / 50)) 2000
  let folded := if raw > 2000 / 2 then 2000 - raw else raw
  magnitude * (2 * (2 * folded / 2000) - 1)

/-- The playback frame-selection computation inside
`HollusionRune.draw`'s `render(timeInMs)`:
`Math.floor(timeInMs / (period / frameCount)) % frameCount`, with the
JavaScript integer remainder (sign of the dividend, i.e. truncating
division). -/
def frameIndex (timeInMs : ℚ) : ℤ :=
  Int.tmod ⌊timeInMs / (hollusionPeriod / (hollusionFrameCount : ℚ))⌋
    (hollusionFrameCount : ℤ)

/-- The wrapper node `scale_independent` builds, with its matrix
simplified. -/
def scaleNode (rx ry : ℚ) (r : Rune) : Rune :=
  Rune.mk [r] (scaleM rx ry 1) none none none

/-- The wrapper node `translate` builds (the y-negation already
applied), with its matrix simplified. -/
def translateNode (x y : ℚ) (r : Rune) : Rune :=
  Rune.mk [r] (translateM x (-y) 0) none none none

/-- The composite node `stack_frac` builds on success, with the wrapper
matrices simplified: the first input scaled to the top `frac` of the
height and translated up by `1 - frac`, the second scaled to the rest
and translated down by `frac`. -/
def stack_fracCore (frac : ℚ) (r1 r2 : Rune) : Rune :=
  Rune.mk
    [translateNode 0 (-(1 - frac)) (scaleNode 1 frac r1),
     translateNode 0 frac (scaleNode 1 (1 - frac) r2)]
    idMat none none none

/-- The composite node `overlay_frac` builds on success, with the
wrapper matrices simplified: the front wrapper (z-scale by the clamped
fraction) listed before the back wrapper (z-translate by the negated
clamped fraction, then z-scale by its complement). -/
def overlayCore (uf : ℚ) (r1 r2 : Rune) : Rune :=
  Rune.mk
    [Rune.mk [r1] (scaleM 1 1 uf) none none none,
     Rune.mk [r2] (matMul (translateM 0 0 (-uf)) (scaleM 1 1 (1 - uf)))
       none none none]
    idMat none none none

/-- The value `stackn(n, rune)` computes for a positive integer `n`:
`n = 1` returns the rune itself, larger `n` stacks one copy (with
fraction `1/n`) on top of the stack of the remaining `n - 1`. -/
def stacknNat : Nat → Rune → Rune
  | 0, r => r
  | 1, r => r
  | n + 2, r => stack_fracCore (1 / ((n : ℚ) + 2)) r (stacknNat (n + 1) r)

/-- The backdrop the code actually builds, in resolved form: a white
color node over one `overlay_frac` composite whose front argument is
`blank` and whose back argument is the enlarged square, with the
effective (clamped) fraction `1 - 1e-6`. -/
def anaglyphBackdropCore : Rune :=
  Rune.mk
    [overlayCore (1 - 1 / 1000000) blank (scaleNode (11 / 5) (11 / 5) square)]
    idMat (some ⟨1, 1, 1, 1⟩) none none

/-- The padded anaglyph scene as claim C6 words it: a single
`overlay_frac` call with fraction `1 - 1e-6` whose front argument is
the full-screen, slightly-enlarged, white-colored backing and whose
back argument is the caller's scaled scene. -/
def claimedAnaglyphScene (scene : Rune) : Except RuneError (List DrawnRune) := do
  let enlarged ← scale (11 / 5) (Value.rune square)
  let whiteBacking ← white (Value.rune enlarged)
  let scaledScene ← scale (11 / 5) (Value.rune scene)
  let padded ← overlay_frac (1 - 1 / 1000000) (Value.rune whiteBacking)
    (Value.rune scaledScene)
  pure (flatten padded)

theorem matMul_idMat_left (m : Mat4) : matMul idMat m = m := by
  funext i j
  fin_cases i <;> simp +decide [matMul, idMat]

theorem matMul_idMat_right (m : Mat4) : matMul m idMat = m := by
  funext i j
  fin_cases j <;> simp +decide [matMul, idMat]

theorem matMul_assoc (a b c : Mat4) :
    matMul (matMul a b) c = matMul a (matMul b c) := by
  funext i j
  simp only [matMul]
  ring

/-!  Helper lemmas: evaluation of the combinators on genuine runes, and
the action of `flattenAux` on the two node kinds. -/

theorem attach_flatMap (l : List Rune) (f : Rune → List DrawnRune) :
    (l.attach.flatMap fun x => f x.1) = l.flatMap f := by
  simp [List.flatMap_subtype]

theorem flattenAux_geom (acc : Mat4) (col : Option RGBA)
    (tex : Option String) (subs : List Rune) (mat : Mat4)
    (cols : Option RGBA) (txt : Option String) (g : Shape) :
    flattenAux acc col tex (Rune.mk subs mat cols txt (some g)) =
      [⟨g, matMul acc mat, (ovr cols col).getD blackColor, ovr txt tex⟩] := by
  rw [flattenAux]

theorem flattenAux_node (acc : Mat4) (col : Option RGBA)
    (tex : Option String) (subs : List Rune) (mat : Mat4)
    (cols : Option RGBA) (txt : Option String) :
    flattenAux acc col tex (Rune.mk subs mat cols txt none) =
      subs.flatMap (flattenAux (matMul acc mat) (ovr cols col) (ovr txt tex)) := by
  rw [flattenAux, attach_flatMap]

/-- The transform-composition property of the resolver: flattening under
an accumulated transform equals flattening under the identity with the
accumulated transform multiplied onto every world transform from the
left.  This is the spec's statement that each occurrence of a shared
node receives its own path's context. -/
theorem flattenAux_acc (k : Nat) :
    ∀ r : Rune, sizeOf r ≤ k → ∀ (acc : Mat4) (col : Option RGBA)
      (tex : Option String),
      flattenAux acc col tex r = (flattenAux idMat col tex r).map
        (fun d => ⟨d.geometry, matMul acc d.worldTransform,
          d.resolvedColor, d.resolvedTexture⟩) := by
  induction k with
  | zero =>
    intro r hr
    cases r with
    | mk subs mat cols txt geo => simp [Rune.mk.sizeOf_spec] at hr
  | succ n ih =>
    intro r hr acc col tex
    cases r with
    | mk subs mat cols txt geo =>
      cases geo with
      | some g =>
        rw [flattenAux_geom, flattenAux_geom]
        simp [matMul_idMat_left, matMul_assoc]
      | none =>
        rw [flattenAux_node, flattenAux_node, matMul_idMat_left]
        rw [List.map_flatMap]
        apply List.flatMap_congr
        intro x hx
        have hsz : sizeOf x < sizeOf subs := List.sizeOf_lt_of_mem hx
        have hsubs : sizeOf subs < sizeOf (Rune.mk subs mat cols txt none) := by
          simp [Rune.mk.sizeOf_spec]
          omega
        have hxn : sizeOf x ≤ n := by omega
        rw [ih x hxn (matMul acc mat), ih x hxn mat]
        simp [Function.comp, matMul_assoc]

/-- `flattenAux_acc` without the size bookkeeping. -/
theorem flattenAux_acc' (r : Rune) (acc : Mat4) (col : Option RGBA)
    (tex : Option String) :
    flattenAux acc col tex r = (flattenAux idMat col tex r).map
      (fun d => ⟨d.geometry, matMul acc d.worldTransform,
        d.resolvedColor, d.resolvedTexture⟩) :=
  flattenAux_acc (sizeOf r) r le_rfl acc col tex

theorem except_bind_ok {ε α β : Type} (a : α) (f : α → Except ε β) :
    (Except.ok a >>= f) = f a := rfl

theorem except_bind_error {ε α β : Type} (e : ε) (f : α → Except ε β) :
    ((Except.error e : Except ε α) >>= f) = Except.error e := rfl

theorem except_pure {ε α : Type} (a : α) :
    (pure a : Except ε α) = Except.ok a := rfl

theorem scale_independent_rune (rx ry : ℚ) (r : Rune) :
    scale_independent rx ry (Value.rune r) =
      Except.ok (scaleNode rx ry r) := by
  simp only [scale_independent, throwIfNotRune, except_bind_ok, except_pure,
    matMul_idMat_left, matMul_idMat_right, scaleNode]

theorem translate_rune (x y : ℚ) (r : Rune) :
    translate x y (Value.rune r) = Except.ok (translateNode x y r) := by
  simp only [translate, throwIfNotRune, except_bind_ok, except_pure,
    matMul_idMat_left, matMul_idMat_right, translateNode]

theorem stack_frac_rune (frac : ℚ) (h0 : 0 ≤ frac) (h1 : frac ≤ 1)
    (r1 r2 : Rune) :
    stack_frac frac (Value.rune r1) (Value.rune r2) =
      Except.ok (stack_fracCore frac r1 r2) := by
  have hc : ¬¬(frac ≥ 0 ∧ frac ≤ 1) := not_not_intro ⟨h0, h1⟩
  simp only [stack_frac, throwIfNotRune, except_bind_ok]
  rw [if_neg hc]
  simp only [scale_independent_rune, translate_rune, except_bind_ok,
    except_pure, stack_fracCore]

theorem overlay_frac_rune (frac : ℚ) (h0 : 0 ≤ frac) (h1 : frac ≤ 1)
    (r1 r2 : Rune) :
    overlay_frac frac (Value.rune r1) (Value.rune r2) =
      Except.ok (overlayCore (clampFrac frac) r1 r2) := by
  have hc : ¬¬(frac ≥ 0 ∧ frac ≤ 1) := not_not_intro ⟨h0, h1⟩
  simp only [overlay_frac, throwIfNotRune, except_bind_ok]
  rw [if_neg hc]
  simp only [matMul_idMat_left, except_pure, overlayCore]

theorem scale_rune (q : ℚ) (r : Rune) :
    scale q (Value.rune r) = Except.ok (scaleNode q q r) := by
  simp only [scale, throwIfNotRune, except_bind_ok, scale_independent_rune]

theorem white_rune (r : Rune) :
    white (Value.rune r) =
      Except.ok (Rune.mk [r] idMat (some ⟨1, 1, 1, 1⟩) none none) := by
  simp only [white, throwIfNotRune, except_bind_ok, except_pure,
    addColorFromHex]
  simp +decide [hexToColor]

theorem clampFrac_bounds (frac : ℚ) :
    1 / 1000000 ≤ clampFrac frac ∧ clampFrac frac ≤ 1 - 1 / 1000000 := by
  have hlt : (1 : ℚ) / 1000000 ≤ 1 - 1 / 1000000 := by norm_num
  simp only [clampFrac]
  split_ifs <;> constructor <;> linarith

theorem clampFrac_zero : clampFrac 0 = 1 / 1000000 := by
  norm_num [clampFrac]

theorem clampFrac_eps : clampFrac (1 / 1000000) = 1 / 1000000 := by
  norm_num [clampFrac]

theorem clampFrac_anaglyph :
    clampFrac (999999999 / 1000000000) = 1 - 1 / 1000000 := by
  norm_num [clampFrac]

theorem stacknF_succ_spec :
    ∀ (k : Nat) (r : Rune) (fuel : Nat), k + 1 ≤ fuel →
      stacknF fuel ((k + 1 : Nat) : ℚ) (Value.rune r) =
        some (Except.ok (stacknNat (k + 1) r)) := by
  intro k
  induction k with
  | zero =>
    intro r fuel hf
    match fuel, hf with
    | fl + 1, _ =>
      simp [stacknF, throwIfNotRune, stacknNat]
  | succ j ih =>
    intro r fuel hf
    match fuel, hf with
    | fl + 1, hf =>
      have hfl : j + 1 ≤ fl := by omega
      have hj : (0 : ℚ) ≤ (j : ℚ) := Nat.cast_nonneg j
      have hne : ((j + 1 + 1 : Nat) : ℚ) ≠ 1 := by
        push_cast
        intro h
        linarith
      have hsub : ((j + 1 + 1 : Nat) : ℚ) - 1 = ((j + 1 : Nat) : ℚ) := by
        push_cast
        ring
      have h0 : (0 : ℚ) ≤ 1 / ((j + 1 + 1 : Nat) : ℚ) := by positivity
      have h1 : 1 / ((j + 1 + 1 : Nat) : ℚ) ≤ 1 := by
        rw [div_le_one (by push_cast; linarith)]
        push_cast
        linarith
      simp only [stacknF, throwIfNotRune]
      rw [if_neg hne, hsub, ih r fl hfl]
      dsimp only
      rw [stack_frac_rune _ h0 h1 r (stacknNat (j + 1) r)]
      have hcast : ((j + 1 + 1 : Nat) : ℚ) = (j : ℚ) + 2 := by
        push_cast
        ring
      simp only [stacknNat, hcast]

theorem stacknF_nonpos :
    ∀ (fl : Nat) (q : ℚ), q ≤ 0 → ∀ r : Rune,
      stacknF fl q (Value.rune r) = none := by
  intro fl
  induction fl with
  | zero =>
    intro q hq r
    rfl
  | succ n ih =>
    intro q hq r
    have hne : q ≠ 1 := by linarith
    simp only [stacknF, throwIfNotRune, if_neg hne,
      ih (q - 1) (by linarith) r]

/-!  Claim theorems. -/

/-- C5 (confirmed): `repeat_pattern(0, f, x)` returns `x` unchanged,
and for every non-negative integer `n`, `repeat_pattern(n, f, x)` is
the n-fold application of `f` to `x`; in particular
`repeat_pattern(3, f, x) = f(f(f(x)))`. -/
theorem c5_repeat_pattern_iterates (f : Value → Value) (x : Value) :
    repeat_pattern 0 f x = x
    ∧ (∀ n : Nat, repeat_pattern n f x = f^[n] x)
    ∧ repeat_pattern 3 f x = f (f (f x)) := by
  refine ⟨rfl, ?_, rfl⟩
  intro n
  induction n with
  | zero => rfl
  | succ k ih =>
    simp only [repeat_pattern, ih, Function.iterate_succ_apply']

/-- C2 (confirmed): for every `frac` outside `[0,1]` and all Runes,
`stack_frac`, `beside_frac` and `overlay_frac` each fail with their
descriptive range error; for `overlay_frac` the error is raised even
though clamping would have brought `frac` into range, i.e. the check
precedes the clamp. -/
theorem c2_frac_range_errors (frac : ℚ) (h : frac < 0 ∨ 1 < frac)
    (r1 r2 : Rune) :
    stack_frac frac (Value.rune r1) (Value.rune r2) =
      Except.error (RuneError.rangeError "stack_frac can only take fraction in [0,1].")
    ∧ beside_frac frac (Value.rune r1) (Value.rune r2) =
      Except.error (RuneError.rangeError "beside_frac can only take fraction in [0,1].")
    ∧ overlay_frac frac (Value.rune r1) (Value.rune r2) =
      Except.error (RuneError.rangeError "overlay_frac can only take fraction in [0,1].") := by
  have hc : ¬(frac ≥ 0 ∧ frac ≤ 1) := by
    rintro ⟨a, b⟩
    rcases h with h | h <;> linarith
  refine ⟨?_, ?_, ?_⟩ <;>
    · simp only [stack_frac, beside_frac, overlay_frac, throwIfNotRune,
        except_bind_ok]
      rw [if_pos hc]

/-- Witness for C2 at the concrete out-of-range input `frac = 2`. -/
theorem c2_frac_range_errors_witness :
    ((2 : ℚ) < 0 ∨ 1 < (2 : ℚ))
    ∧ (stack_frac 2 (Value.rune square) (Value.rune square) =
        Except.error (RuneError.rangeError "stack_frac can only take fraction in [0,1].")
      ∧ beside_frac 2 (Value.rune square) (Value.rune square) =
        Except.error (RuneError.rangeError "beside_frac can only take fraction in [0,1].")
      ∧ overlay_frac 2 (Value.rune square) (Value.rune square) =
        Except.error (RuneError.rangeError "overlay_frac can only take fraction in [0,1].")) :=
  ⟨Or.inr (by decide),
   c2_frac_range_errors 2 (Or.inr (by decide)) square square⟩

/-- C3 (confirmed): for `frac` in `[0,1]`, `overlay_frac` builds its
result from the fraction clamped into `[1e-6, 1 - 1e-6]` (never exactly
0 or 1), using it for the front z-scale wrapper and the back
z-translate-plus-z-scale wrapper, front listed before back; and
`overlay_frac 0` equals `overlay_frac 1e-6` outright (the clamp is a
no-op at that boundary). -/
theorem c3_overlay_frac_clamp (frac : ℚ) (h0 : 0 ≤ frac) (h1 : frac ≤ 1)
    (r1 r2 : Rune) :
    overlay_frac frac (Value.rune r1) (Value.rune r2) =
      Except.ok (overlayCore (clampFrac frac) r1 r2)
    ∧ 1 / 1000000 ≤ clampFrac frac
    ∧ clampFrac frac ≤ 1 - 1 / 1000000
    ∧ clampFrac frac ≠ 0
    ∧ clampFrac frac ≠ 1
    ∧ overlay_frac 0 (Value.rune r1) (Value.rune r2) =
        overlay_frac (1 / 1000000) (Value.rune r1) (Value.rune r2) := by
  obtain ⟨hb1, hb2⟩ := clampFrac_bounds frac
  refine ⟨overlay_frac_rune frac h0 h1 r1 r2, hb1, hb2, ?_, ?_, ?_⟩
  · intro hz
    rw [hz] at hb1
    norm_num at hb1
  · intro ho
    rw [ho] at hb2
    norm_num at hb2
  · rw [overlay_frac_rune 0 le_rfl (by norm_num) r1 r2,
      overlay_frac_rune (1 / 1000000) (by norm_num) (by norm_num) r1 r2,
      clampFrac_zero, clampFrac_eps]

/-- Witness for C3 at the concrete in-range input `frac = 1`. -/
theorem c3_overlay_frac_clamp_witness :
    (0 : ℚ) ≤ 1
    ∧ (overlay_frac 1 (Value.rune square) (Value.rune square) =
        Except.ok (overlayCore (clampFrac 1) square square)
      ∧ 1 / 1000000 ≤ clampFrac 1
      ∧ clampFrac 1 ≤ 1 - 1 / 1000000
      ∧ clampFrac 1 ≠ 0
      ∧ clampFrac 1 ≠ 1
      ∧ overlay_frac 0 (Value.rune square) (Value.rune square) =
          overlay_frac (1 / 1000000) (Value.rune square) (Value.rune square)) :=
  ⟨by decide, c3_overlay_frac_clamp 1 (by decide) (by decide) square square⟩

/-- C4 (confirmed): for `frac` in `[0,1]`, `stack_frac` builds its
result by independently scaling each input's height and translating it
into position (`r1` to the top `frac` of the height, `r2` to the rest):
the flattened primitives of the result are those of `r1` under the
context `translate-up times y-scale frac` followed by those of `r2`
under `translate-down times y-scale (1-frac)`; at `frac = 1/2` the
upper context maps a point `(x, y, z)` to `(x, y/2 + 1/2, z)` (the
upper half) and the lower context to `(x, y/2 - 1/2, z)` (the lower
half). -/
theorem c4_stack_frac_layout (frac : ℚ) (h0 : 0 ≤ frac) (h1 : frac ≤ 1)
    (r1 r2 : Rune) :
    stack_frac frac (Value.rune r1) (Value.rune r2) =
      Except.ok (stack_fracCore frac r1 r2)
    ∧ flatten (stack_fracCore frac r1 r2) =
        (flatten r1).map (fun d => ⟨d.geometry,
          matMul (matMul (translateM 0 (1 - frac) 0) (scaleM 1 frac 1))
            d.worldTransform, d.resolvedColor, d.resolvedTexture⟩)
        ++ (flatten r2).map (fun d => ⟨d.geometry,
          matMul (matMul (translateM 0 (-frac) 0) (scaleM 1 (1 - frac) 1))
            d.worldTransform, d.resolvedColor, d.resolvedTexture⟩)
    ∧ (∀ x y z : ℚ,
        applyAffine (matMul (translateM 0 (1 - (1 / 2 : ℚ)) 0)
          (scaleM 1 (1 / 2) 1)) (x, y, z) = (x, y / 2 + 1 / 2, z))
    ∧ (∀ x y z : ℚ,
        applyAffine (matMul (translateM 0 (-(1 / 2) : ℚ) 0)
          (scaleM 1 (1 - 1 / 2) 1)) (x, y, z) = (x, y / 2 - 1 / 2, z)) := by
  refine ⟨stack_frac_rune frac h0 h1 r1 r2, ?_, ?_, ?_⟩
  · simp only [flatten, stack_fracCore, translateNode, scaleNode, neg_neg,
      flattenAux_node, List.flatMap_cons, List.flatMap_nil, List.append_nil,
      matMul_idMat_left, matMul_idMat_right, ovr]
    rw [flattenAux_acc' r1, flattenAux_acc' r2]
  · intro x y z
    simp +decide [applyAffine, matMul, translateM, scaleM]
    ring
  · intro x y z
    simp +decide [applyAffine, matMul, translateM, scaleM]
    ring

/-- C7 (confirmed): the anaglyph combining shader computes, per pixel,
the component-wise sum of the two per-eye samples minus 1 with alpha
forced to 1; two full-white samples combine (after the representable
range clamp) to opaque white, two black samples to opaque black. -/
theorem c7_anaglyph_combine_math (t1 t2 : RGBA) :
    anaglyphCombine t1 t2 =
      ⟨t1.r + t2.r - 1, t1.g + t2.g - 1, t1.b + t2.b - 1, 1⟩
    ∧ storeColor (anaglyphCombine ⟨1, 1, 1, 1⟩ ⟨1, 1, 1, 1⟩) = ⟨1, 1, 1, 1⟩
    ∧ storeColor (anaglyphCombine ⟨0, 0, 0, 1⟩ ⟨0, 0, 0, 1⟩) = ⟨0, 0, 0, 1⟩ := by
  refine ⟨rfl, ?_, ?_⟩ <;> norm_num [anaglyphCombine, storeColor, clamp01]

/-- C8 (confirmed): in the Hollusion bake phase (period 2000 ms, 50
frames), for every sample index `i` below the frame count, the camera's
horizontal offset (the first component of the eye vector handed to
`lookAt`) equals `magnitude * (2 * (2 * raw / period) - 1)` with `raw`
the half-period fold of `(i * period/N) mod period`. -/
theorem c8_hollusion_camera_offset (magnitude : ℚ) (i : Nat)
    (_hi : i < hollusionFrameCount) :
    (hollusionCameraEye magnitude i).1 = specHollusionOffset magnitude i := by
  simp [hollusionCameraEye, hollusionXshift, specHollusionOffset,
    hollusionPeriod, hollusionFrameCount]

/-- Witness for C8 at the concrete sample index `i = 7`. -/
theorem c8_hollusion_camera_offset_witness :
    7 < hollusionFrameCount
    ∧ (hollusionCameraEye (1 / 10) 7).1 = specHollusionOffset (1 / 10) 7 :=
  ⟨by decide, c8_hollusion_camera_offset (1 / 10) 7 (by decide)⟩

/-- C9 (corrected) counterexample: the claim asserts
`frameIndex(t) = frameIndex(t + period)` for all `t`, but the
JavaScript remainder takes the dividend's sign, so at the concrete
input `t = -120` the code yields `(-3) % 50 = -3` while
`t + period = 1880` yields `47`. -/
theorem c9_frame_index_not_periodic_everywhere :
    frameIndex (-120) ≠ frameIndex (-120 + hollusionPeriod) := by
  have e1 : frameIndex (-120) = Int.tmod (-3) 50 := by
    have hf : ⌊(-120 : ℚ) / (hollusionPeriod / 50)⌋ = -3 := by
      norm_num [hollusionPeriod]
    simp [frameIndex, hollusionFrameCount, hf]
  have e2 : frameIndex (-120 + hollusionPeriod) = Int.tmod 47 50 := by
    have hf : ⌊(-120 + hollusionPeriod : ℚ) / (hollusionPeriod / 50)⌋ = 47 := by
      norm_num [hollusionPeriod]
    simp [frameIndex, hollusionFrameCount, hf]
  rw [e1, e2]
  decide

/-- C9 (corrected) amended claim: for every non-negative time `t` (the
host's time source only produces non-negative timestamps), the playback
frame-selection function is periodic with period 2000 ms. -/
theorem c9_frame_index_periodic (t : ℚ) (ht : 0 ≤ t) :
    frameIndex (t + hollusionPeriod) = frameIndex t := by
  have h40 : hollusionPeriod / ((hollusionFrameCount : ℕ) : ℚ) = 40 := by
    norm_num [hollusionPeriod, hollusionFrameCount]
  have hdiv : (t + hollusionPeriod) / 40 = t / 40 + 50 := by
    rw [hollusionPeriod]
    ring
  have hfl : ⌊t / 40 + (50 : ℚ)⌋ = ⌊t / 40⌋ + 50 :=
    mod_cast Int.floor_add_int (t / 40) 50
  have hnn : 0 ≤ ⌊t / 40⌋ := Int.floor_nonneg.mpr (by positivity)
  simp only [frameIndex, h40, hdiv, hfl]
  have h50 : ((hollusionFrameCount : ℕ) : ℤ) = 50 := by
    norm_num [hollusionFrameCount]
  rw [h50, Int.tmod_eq_emod (by omega) (by omega), Int.tmod_eq_emod hnn (by omega)]
  omega

/-- Witness for the amended C9 at the concrete time `t = 0`. -/
theorem c9_frame_index_periodic_witness :
    (0 : ℚ) ≤ 0 ∧ frameIndex (0 + hollusionPeriod) = frameIndex 0 :=
  ⟨by decide, c9_frame_index_periodic 0 (by decide)⟩

/-- Witness for C4 at the concrete inputs `frac = 1` and two square
primitives. -/
theorem c4_stack_frac_layout_witness :
    ((0 : ℚ) ≤ 1 ∧ (1 : ℚ) ≤ 1)
    ∧ (stack_frac 1 (Value.rune square) (Value.rune square) =
        Except.ok (stack_fracCore 1 square square)
      ∧ flatten (stack_fracCore 1 square square) =
          (flatten square).map (fun d => ⟨d.geometry,
            matMul (matMul (translateM 0 (1 - 1) 0) (scaleM 1 1 1))
              d.worldTransform, d.resolvedColor, d.resolvedTexture⟩)
          ++ (flatten square).map (fun d => ⟨d.geometry,
            matMul (matMul (translateM 0 (-1) 0) (scaleM 1 (1 - 1) 1))
              d.worldTransform, d.resolvedColor, d.resolvedTexture⟩)
      ∧ (∀ x y z : ℚ,
          applyAffine (matMul (translateM 0 (1 - (1 / 2 : ℚ)) 0)
            (scaleM 1 (1 / 2) 1)) (x, y, z) = (x, y / 2 + 1 / 2, z))
      ∧ (∀ x y z : ℚ,
          applyAffine (matMul (translateM 0 (-(1 / 2) : ℚ) 0)
            (scaleM 1 (1 - 1 / 2) 1)) (x, y, z) = (x, y / 2 - 1 / 2, z))) :=
  ⟨⟨by decide, by decide⟩,
   c4_stack_frac_layout 1 (by decide) (by decide) square square⟩

/-- C10 (confirmed): for every integer `n ≥ 1` (and any fuel at least
`n`), `stackn(n, r)` terminates normally: it returns `r` itself at
`n = 1` and the value of `stack_frac(1/n, r, stackn(n-1, r))`
otherwise; and the hypothesis is needed for a normal return, since at
`n = 0` the recursion never reaches the `n === 1` base case (it runs
out of any finite fuel). -/
theorem c10_stackn_terminates (n : Nat) (r : Rune) (fuel : Nat)
    (h1 : 1 ≤ n) (hf : n ≤ fuel) :
    stacknF fuel (n : ℚ) (Value.rune r) = some (Except.ok (stacknNat n r))
    ∧ stacknNat 1 r = r
    ∧ (∀ m : Nat, 2 ≤ m →
        stack_frac (1 / (m : ℚ)) (Value.rune r)
          (Value.rune (stacknNat (m - 1) r)) =
          Except.ok (stacknNat m r))
    ∧ (∀ fl : Nat, stacknF fl (0 : ℚ) (Value.rune r) = none) := by
  obtain ⟨k, rfl⟩ : ∃ k, n = k + 1 := ⟨n - 1, by omega⟩
  refine ⟨stacknF_succ_spec k r fuel hf, rfl, ?_, fun fl =>
    stacknF_nonpos fl 0 le_rfl r⟩
  intro m hm
  obtain ⟨j, rfl⟩ : ∃ j, m = j + 2 := ⟨m - 2, by omega⟩
  have hj : (0 : ℚ) ≤ (j : ℚ) := Nat.cast_nonneg j
  have h0 : (0 : ℚ) ≤ 1 / ((j + 2 : Nat) : ℚ) := by positivity
  have hden : (0 : ℚ) < ((j + 2 : Nat) : ℚ) := by
    push_cast
    linarith
  have hone : 1 / ((j + 2 : Nat) : ℚ) ≤ 1 := by
    rw [div_le_one hden]
    push_cast
    linarith
  have hsub : j + 2 - 1 = j + 1 := by omega
  rw [hsub, stack_frac_rune _ h0 hone r (stacknNat (j + 1) r)]
  have hcast : ((j + 2 : Nat) : ℚ) = (j : ℚ) + 2 := by
    push_cast
    ring
  simp only [stacknNat, hcast]

/-- Witness for C10 at the concrete inputs `n = 3`, `fuel = 3` and the
square primitive. -/
theorem c10_stackn_terminates_witness :
    (1 ≤ 3 ∧ 3 ≤ 3)
    ∧ (stacknF 3 ((3 : Nat) : ℚ) (Value.rune square) =
        some (Except.ok (stacknNat 3 square))
      ∧ stacknNat 1 square = square
      ∧ (∀ m : Nat, 2 ≤ m →
          stack_frac (1 / (m : ℚ)) (Value.rune square)
            (Value.rune (stacknNat (m - 1) square)) =
            Except.ok (stacknNat m square))
      ∧ (∀ fl : Nat, stacknF fl (0 : ℚ) (Value.rune square) = none)) :=
  ⟨⟨by decide, by decide⟩,
   c10_stackn_terminates 3 square 3 (by decide) (by decide)⟩

/-- C1 (corrected) counterexample: the claim includes `repeat_pattern`
itself among the combinators that must fail with a TypeError on a
non-Rune argument ("this holds for repeat_pattern itself when its
initial argument is not a Rune").  The source body of `repeat_pattern`
contains no validation and no throw: at the concrete input `n = 0`,
identity callback, and the non-Rune value `"42"`, it returns the
non-Rune unchanged instead of failing. -/
theorem c1_repeat_pattern_no_validation :
    repeat_pattern 0 (fun v => v) (Value.nonRune "42") =
      Value.nonRune "42" := rfl

/-- C1 (corrected) amended claim: every combinator in the public API
other than `from_url`, `random_color`, `repeat_pattern` (itself as well
as its callback) and the primitive constructors validates its
Rune-typed arguments and fails with a TypeError naming the offending
function, constructing no partial graph; `repeat_pattern` performs no
validation of its own and, at `n = 0`, returns a non-Rune initial
unchanged. -/
theorem c1_combinators_validate (s : String) (q q2 : ℚ) (r : Rune)
    (T : JsTrig) (fuel : Nat) (n : ℚ) (f : Value → Value) :
    scale_independent q q2 (Value.nonRune s) =
      Except.error (RuneError.typeError "scale_independent")
    ∧ scale q (Value.nonRune s) = Except.error (RuneError.typeError "scale")
    ∧ translate q q2 (Value.nonRune s) =
      Except.error (RuneError.typeError "translate")
    ∧ rotate T q (Value.nonRune s) =
      Except.error (RuneError.typeError "rotate")
    ∧ quarter_turn_right T (Value.nonRune s) =
      Except.error (RuneError.typeError "quarter_turn_right")
    ∧ quarter_turn_left T (Value.nonRune s) =
      Except.error (RuneError.typeError "quarter_turn_left")
    ∧ turn_upside_down T (Value.nonRune s) =
      Except.error (RuneError.typeError "turn_upside_down")
    ∧ stack_frac q (Value.nonRune s) (Value.rune r) =
      Except.error (RuneError.typeError "stack_frac")
    ∧ stack_frac q (Value.rune r) (Value.nonRune s) =
      Except.error (RuneError.typeError "stack_frac")
    ∧ stack (Value.nonRune s) (Value.rune r) =
      Except.error (RuneError.typeError "stack")
    ∧ stack (Value.rune r) (Value.nonRune s) =
      Except.error (RuneError.typeError "stack")
    ∧ stacknF (fuel + 1) n (Value.nonRune s) =
      some (Except.error (RuneError.typeError "stackn"))
    ∧ beside_frac q (Value.nonRune s) (Value.rune r) =
      Except.error (RuneError.typeError "beside_frac")
    ∧ beside_frac q (Value.rune r) (Value.nonRune s) =
      Except.error (RuneError.typeError "beside_frac")
    ∧ beside (Value.nonRune s) (Value.rune r) =
      Except.error (RuneError.typeError "beside")
    ∧ beside (Value.rune r) (Value.nonRune s) =
      Except.error (RuneError.typeError "beside")
    ∧ flip_vert (Value.nonRune s) =
      Except.error (RuneError.typeError "flip_vert")
    ∧ flip_horiz (Value.nonRune s) =
      Except.error (RuneError.typeError "flip_horiz")
    ∧ make_cross T (Value.nonRune s) =
      Except.error (RuneError.typeError "make_cross")
    ∧ overlay_frac q (Value.nonRune s) (Value.rune r) =
      Except.error (RuneError.typeError "overlay_frac")
    ∧ overlay_frac q (Value.rune r) (Value.nonRune s) =
      Except.error (RuneError.typeError "overlay_frac")
    ∧ overlay (Value.nonRune s) (Value.rune r) =
      Except.error (RuneError.typeError "overlay")
    ∧ overlay (Value.rune r) (Value.nonRune s) =
      Except.error (RuneError.typeError "overlay")
    ∧ color (Value.nonRune s) q q2 n =
      Except.error (RuneError.typeError "color")
    ∧ red (Value.nonRune s) = Except.error (RuneError.typeError "red")
    ∧ pink (Value.nonRune s) = Except.error (RuneError.typeError "pink")
    ∧ purple (Value.nonRune s) = Except.error (RuneError.typeError "purple")
    ∧ indigo (Value.nonRune s) = Except.error (RuneError.typeError "indigo")
    ∧ blue (Value.nonRune s) = Except.error (RuneError.typeError "blue")
    ∧ green (Value.nonRune s) = Except.error (RuneError.typeError "green")
    ∧ yellow (Value.nonRune s) = Except.error (RuneError.typeError "yellow")
    ∧ orange (Value.nonRune s) = Except.error (RuneError.typeError "orange")
    ∧ brown (Value.nonRune s) = Except.error (RuneError.typeError "brown")
    ∧ black (Value.nonRune s) = Except.error (RuneError.typeError "black")
    ∧ white (Value.nonRune s) = Except.error (RuneError.typeError "white")
    ∧ repeat_pattern 0 f (Value.nonRune s) = Value.nonRune s :=
  ⟨rfl, rfl, rfl, rfl, rfl, rfl, rfl, rfl, rfl, rfl, rfl, rfl, rfl, rfl,
   rfl, rfl, rfl, rfl, rfl, rfl, rfl, rfl, rfl, rfl, rfl, rfl, rfl, rfl,
   rfl, rfl, rfl, rfl, rfl, rfl, rfl, rfl⟩

theorem anaglyphRunes_eq (scene : Rune) :
    anaglyphRunes scene =
      Except.ok (flatten anaglyphBackdropCore ++ flatten scene) := by
  have hov := overlay_frac_rune (999999999 / 1000000000) (by norm_num)
    (by norm_num) blank (scaleNode (11 / 5) (11 / 5) square)
  simp only [anaglyphRunes, anaglyphBackdrop, scale_rune, except_bind_ok,
    hov, clampFrac_anaglyph, white_rune, except_pure, anaglyphBackdropCore]

/-- C6 (corrected) amended claim: before rendering, the code prepends
the flattened primitives of
`white(overlay_frac(0.999999999, blank, scale(2.2, square)))` — a white
backing whose single `overlay_frac` call takes the input fraction
`1 - 1e-9` (clamped internally to `1 - 1e-6`), with `blank` as the
front argument and the enlarged square as the back argument — to the
flattened primitives of the caller's scene; the caller's scene is not
an argument of that `overlay_frac` call. -/
theorem c6_backdrop_prepended (scene : Rune) :
    anaglyphRunes scene =
      Except.ok (flatten anaglyphBackdropCore ++ flatten scene)
    ∧ clampFrac (999999999 / 1000000000) = 1 - 1 / 1000000 :=
  ⟨anaglyphRunes_eq scene, clampFrac_anaglyph⟩

/-- C6 (corrected) counterexample: at the concrete scene `square`, the
primitive list the code renders differs from the construction the claim
describes (`overlay_frac(1 - 1e-6, whiteBacking, scaledScene)`): the
code's list has three primitives (blank and square of the backing, then
the unscaled caller square), while the claimed construction yields two,
since it places the caller's scene inside the `overlay_frac` rather
than concatenating it. -/
theorem c6_claimed_construction_differs :
    claimedAnaglyphScene square ≠ anaglyphRunes square := by
  have hcl : clampFrac (1 - 1 / 1000000) = 1 - 1 / 1000000 := by
    norm_num [clampFrac]
  have hov := overlay_frac_rune (1 - 1 / 1000000) (by norm_num)
    (by norm_num)
    (Rune.mk [scaleNode (11 / 5) (11 / 5) square] idMat
      (some ⟨1, 1, 1, 1⟩) none none)
    (scaleNode (11 / 5) (11 / 5) square)
  have h2 : claimedAnaglyphScene square =
      Except.ok (flatten (overlayCore (1 - 1 / 1000000)
        (Rune.mk [scaleNode (11 / 5) (11 / 5) square] idMat
          (some ⟨1, 1, 1, 1⟩) none none)
        (scaleNode (11 / 5) (11 / 5) square))) := by
    simp only [claimedAnaglyphScene, scale_rune, except_bind_ok, white_rune,
      hov, hcl, except_pure]
  have h1 := anaglyphRunes_eq square
  intro heq
  rw [h1, h2] at heq
  have hlen := congrArg List.length (Except.ok.inj heq)
  simp only [flatten, anaglyphBackdropCore, overlayCore, scaleNode, square,
    blank, getSquare, getBlank, flattenAux_node, flattenAux_geom, ovr,
    List.flatMap_cons, List.flatMap_nil, List.append_nil, List.length_append,
    List.length_cons, List.length_nil] at hlen
  omega

end Runes
